import Mathlib

/-!
# Verification of the go-cache TTL cache

Shallow embedding of `cache.go` from J4NN0/go-cache: a key-value store whose
entries carry an absolute expiration instant (`int64` UnixNano, with `0`
meaning "no expiration", the zero value of the field), plus a background
sweeper that removes expired entries on a timer tick.

Modelling choices:
* The Go map `map[string]item` is an association list `List (String × Item α)`
  with Go assignment (`m[k] = v`), deletion (`delete(m, k)`) and lookup
  (`m[k]`) defined below.  `len(m)` is the list length.
* `time.Now().UnixNano()` becomes an explicit `now : Int` argument at every
  point where the source reads the clock.
* The mutex, wait group and stop channel are concurrency plumbing with no
  effect on the state transformation of a single operation; each method is a
  function from the receiver state (and the clock) to the result and the new
  state.  `Get` returns the unchanged state explicitly, mirroring that the
  method only reads the receiver.
* `fmt.Errorf("%w: %s", base, key)` becomes a structure recording the wrapped
  base error and the key.
-/

namespace GoCache

/-- `DefaultExpiration time.Duration = 0` (cache.go:18). -/
def DefaultExpiration : Int := 0

/-- `NoExpiration time.Duration = -1` (cache.go:20). -/
def NoExpiration : Int := -1

/-- The two sentinel errors created with `errors.New` (cache.go:10-13). -/
inductive BaseErr where
  | ErrItemAlreadyExists
  | ErrItemNotFound
deriving DecidableEq, Repr

/-- An error value returned by `Add`/`Replace`: built by
`fmt.Errorf("%w: %s", base, key)`, so it wraps a base error and carries the
offending key. -/
structure CacheErr where
  wraps : BaseErr
  key   : String
deriving DecidableEq, Repr

/-- `item` (cache.go:32-35): the stored value together with the expiration
instant in UnixNano; `0` (the zero value of `int64`) means no expiration. -/
structure Item (α : Type) where
  object     : α
  expiration : Int
deriving DecidableEq, Repr

/-- The expiry test written inline at cache.go:77,113,132,165:
`item.expiration > 0 && item.expiration <= now`. -/
def Item.isExpiredAt {α : Type} (i : Item α) (now : Int) : Bool :=
  decide (0 < i.expiration) && decide (i.expiration ≤ now)

/-- Go map lookup `m[k]`, returning `none` when the key is absent. -/
def GoMap.lookup {β : Type} (m : List (String × β)) (k : String) : Option β :=
  match m with
  | [] => none
  | (k₀, v) :: rest => if k₀ = k then some v else GoMap.lookup rest k

/-- Go map deletion `delete(m, k)`. -/
def GoMap.erase {β : Type} (m : List (String × β)) (k : String) : List (String × β) :=
  match m with
  | [] => []
  | (k₀, v) :: rest =>
    if k₀ = k then GoMap.erase rest k else (k₀, v) :: GoMap.erase rest k

/-- Go map assignment `m[k] = v`: the key is bound to exactly one value. -/
def GoMap.insert {β : Type} (m : List (String × β)) (k : String) (v : β) :
    List (String × β) :=
  GoMap.erase m k ++ [(k, v)]

/-- `Cache` (cache.go:23-30), reduced to the fields that carry state: the
items map and the default expiration duration.  `stop`, `wg` and `mu` are
concurrency plumbing. -/
structure Cache (α : Type) where
  items             : List (String × Item α)
  defaultExpiration : Int
deriving DecidableEq, Repr

/-- `NewCache` (cache.go:41-62): a non-positive default expiration is
normalized to `NoExpiration`; the map starts empty.  `cleanupInterval` only
decides whether the cleanup goroutine is spawned; the per-tick effect of that
goroutine is modelled by `Cache.cleanUpTick`. -/
def NewCache (α : Type) (defaultExpiration cleanupInterval : Int) : Cache α :=
  let d := if defaultExpiration ≤ 0 then NoExpiration else defaultExpiration
  { items := [], defaultExpiration := d }

/-- The body of one tick of `cleanUp` (cache.go:75-81): delete every item
whose expiration is set (`> 0`) and has passed (`≤ now`). -/
def Cache.cleanUpTick {α : Type} (c : Cache α) (now : Int) : Cache α :=
  { c with items := c.items.filter (fun p => !(p.2.isExpiredAt now)) }

/-- A sequence of sweeper ticks at the given instants. -/
def Cache.sweeps {α : Type} (c : Cache α) (ts : List Int) : Cache α :=
  ts.foldl Cache.cleanUpTick c

/-- `set` (cache.go:141-154): resolve the `DefaultExpiration` sentinel to the
cache default, compute the expiration instant (`now + duration` when the
resolved duration is positive, else the zero value `0`), and assign. -/
def Cache.set {α : Type} (c : Cache α) (key : String) (object : α)
    (duration : Int) (now : Int) : Cache α :=
  let duration := if duration = DefaultExpiration then c.defaultExpiration else duration
  let expiration : Int := if 0 < duration then now + duration else 0
  { c with items := GoMap.insert c.items key ⟨object, expiration⟩ }

/-- `Set` (cache.go:96-101): unconditional upsert (the lock elided). -/
def Cache.Set {α : Type} (c : Cache α) (key : String) (object : α)
    (duration now : Int) : Cache α :=
  c.set key object duration now

/-- `Add` (cache.go:108-120): fails with the `ErrItemAlreadyExists` wrap when
a non-expired item is present; otherwise stores via `set`.  A missing key
yields the zero `item`, whose expiry test is false, hence the `none` branch
stores unconditionally. -/
def Cache.Add {α : Type} (c : Cache α) (key : String) (object : α)
    (duration now : Int) : Option CacheErr × Cache α :=
  match GoMap.lookup c.items key with
  | some i =>
    if i.isExpiredAt now then (none, c.set key object duration now)
    else (some ⟨BaseErr.ErrItemAlreadyExists, key⟩, c)
  | none => (none, c.set key object duration now)

/-- `Replace` (cache.go:127-139): fails with the `ErrItemNotFound` wrap when
the key is absent or its item has expired; otherwise stores via `set`. -/
def Cache.Replace {α : Type} (c : Cache α) (key : String) (object : α)
    (duration now : Int) : Option CacheErr × Cache α :=
  match GoMap.lookup c.items key with
  | some i =>
    if i.isExpiredAt now then (some ⟨BaseErr.ErrItemNotFound, key⟩, c)
    else (none, c.set key object duration now)
  | none => (some ⟨BaseErr.ErrItemNotFound, key⟩, c)

/-- `Get` (cache.go:160-171): returns `(nil, false)` when the key is absent or
the item has expired, else `(value, true)`.  The receiver state is returned
unchanged, mirroring that the method body never writes the map. -/
def Cache.Get {α : Type} (c : Cache α) (key : String) (now : Int) :
    (Option α × Bool) × Cache α :=
  match GoMap.lookup c.items key with
  | some i =>
    if i.isExpiredAt now then ((none, false), c)
    else ((some i.object, true), c)
  | none => ((none, false), c)

/-- `Delete` (cache.go:175-180): unconditional `delete(m, key)`. -/
def Cache.Delete {α : Type} (c : Cache α) (key : String) : Cache α :=
  { c with items := GoMap.erase c.items key }

/-- `Flush` (cache.go:185-190): replace the map with a fresh empty one. -/
def Cache.Flush {α : Type} (c : Cache α) : Cache α :=
  { c with items := [] }

/-- `ItemCount` (cache.go:194-199): `len(c.items)`. -/
def Cache.ItemCount {α : Type} (c : Cache α) : Nat :=
  c.items.length

/-- Spec-side notion of a live entry: the expiration deadline is unset or
strictly in the future of `t` (spec.md, glossary). -/
def Item.liveSpecAt {α : Type} (i : Item α) (t : Int) : Prop :=
  i.expiration = 0 ∨ t < i.expiration

instance {α : Type} (i : Item α) (t : Int) : Decidable (i.liveSpecAt t) := by
  unfold Item.liveSpecAt; infer_instance

/-- Reachable cache states: a Go map binds each key at most once, and every
expiration that `set` stores is `0` or a positive instant (`now + duration`
with a positive duration and a positive UnixNano clock). -/
def Cache.WF {α : Type} (c : Cache α) : Prop :=
  (c.items.map Prod.fst).Nodup ∧ ∀ p ∈ c.items, 0 ≤ p.2.expiration

instance {α : Type} [DecidableEq α] (c : Cache α) : Decidable c.WF := by
  unfold Cache.WF; infer_instance

/-! ## Map lemmas -/

theorem GoMap.lookup_append {β : Type} (a b : List (String × β)) (k : String) :
    GoMap.lookup (a ++ b) k =
      match GoMap.lookup a k with
      | some v => some v
      | none => GoMap.lookup b k := by
  induction a with
  | nil => simp [GoMap.lookup]
  | cons p rest ih =>
    obtain ⟨k₀, v₀⟩ := p
    by_cases h : k₀ = k <;> simp [GoMap.lookup, h, ih]

theorem GoMap.lookup_erase_ne {β : Type} (m : List (String × β)) (k k' : String)
    (h : k' ≠ k) : GoMap.lookup (GoMap.erase m k) k' = GoMap.lookup m k' := by
  induction m with
  | nil => rfl
  | cons p rest ih =>
    obtain ⟨k₀, v₀⟩ := p
    by_cases hk : k₀ = k
    · have hne : ¬ k = k' := fun hh => h hh.symm
      simp [GoMap.erase, GoMap.lookup, hk, hne, ih]
    · by_cases hk' : k₀ = k' <;>
        simp [GoMap.erase, GoMap.lookup, hk, hk', h, ih]

theorem GoMap.lookup_erase_self {β : Type} (m : List (String × β)) (k : String) :
    GoMap.lookup (GoMap.erase m k) k = none := by
  induction m with
  | nil => rfl
  | cons p rest ih =>
    obtain ⟨k₀, v₀⟩ := p
    by_cases hk : k₀ = k <;> simp [GoMap.erase, GoMap.lookup, hk, ih]

theorem GoMap.lookup_insert_self {β : Type} (m : List (String × β)) (k : String) (v : β) :
    GoMap.lookup (GoMap.insert m k v) k = some v := by
  simp [GoMap.insert, GoMap.lookup_append, GoMap.lookup_erase_self, GoMap.lookup]

theorem GoMap.lookup_insert_ne {β : Type} (m : List (String × β)) (k k' : String)
    (v : β) (h : k' ≠ k) :
    GoMap.lookup (GoMap.insert m k v) k' = GoMap.lookup m k' := by
  have hne : k ≠ k' := fun hh => h hh.symm
  rw [GoMap.insert, GoMap.lookup_append]
  rw [GoMap.lookup_erase_ne m k k' h]
  cases hm : GoMap.lookup m k' with
  | some v₀ => rfl
  | none => simp [GoMap.lookup, hne]

theorem GoMap.lookup_mem {β : Type} {m : List (String × β)} {k : String} {v : β}
    (h : GoMap.lookup m k = some v) : (k, v) ∈ m := by
  induction m with
  | nil => simp [GoMap.lookup] at h
  | cons p rest ih =>
    obtain ⟨k₀, v₀⟩ := p
    by_cases hk : k₀ = k
    · subst hk
      simp [GoMap.lookup] at h
      simp [h]
    · simp [GoMap.lookup, hk] at h
      exact List.mem_cons_of_mem _ (ih h)

theorem GoMap.lookup_none_filter {β : Type} (m : List (String × β)) (k : String)
    (p : String × β → Bool) (h : GoMap.lookup m k = none) :
    GoMap.lookup (m.filter p) k = none := by
  induction m with
  | nil => simp [GoMap.lookup]
  | cons q rest ih =>
    obtain ⟨k₀, v₀⟩ := q
    by_cases hk : k₀ = k
    · simp [GoMap.lookup, hk] at h
    · simp [GoMap.lookup, hk] at h
      by_cases hp : p (k₀, v₀) <;>
        simp [List.filter_cons, hp, GoMap.lookup, hk, ih h]

theorem GoMap.lookup_filter_of_nodup {β : Type} (m : List (String × β)) (k : String)
    (v : β) (p : String × β → Bool) (hnd : (m.map Prod.fst).Nodup)
    (h : GoMap.lookup m k = some v) :
    GoMap.lookup (m.filter p) k = if p (k, v) then some v else none := by
  induction m with
  | nil => simp [GoMap.lookup] at h
  | cons q rest ih =>
    obtain ⟨k₀, v₀⟩ := q
    simp only [List.map_cons, List.nodup_cons] at hnd
    by_cases hk : k₀ = k
    · subst hk
      have hv : v₀ = v := by simpa [GoMap.lookup] using h
      have hrest : GoMap.lookup rest k₀ = none := by
        cases hr : GoMap.lookup rest k₀ with
        | none => rfl
        | some w =>
          exact absurd (List.mem_map_of_mem Prod.fst (GoMap.lookup_mem hr)) hnd.1
      rw [← hv]
      by_cases hp : p (k₀, v₀) <;>
        simp [List.filter_cons, hp, GoMap.lookup,
          GoMap.lookup_none_filter rest k₀ p hrest]
    · simp only [GoMap.lookup, hk, if_false, if_neg hk] at h
      by_cases hp : p (k₀, v₀) <;>
        simp [List.filter_cons, hp, GoMap.lookup, hk, ih hnd.2 h]

theorem GoMap.nodup_filter {β : Type} (m : List (String × β))
    (p : String × β → Bool) (hnd : (m.map Prod.fst).Nodup) :
    ((m.filter p).map Prod.fst).Nodup :=
  List.Nodup.sublist (List.Sublist.map Prod.fst (List.filter_sublist m)) hnd

/-- The length of a list is the number of elements satisfying a predicate
plus the number failing it. -/
theorem length_filter_partition {γ : Type} (m : List γ) (p : γ → Bool) :
    m.length = (m.filter p).length + (m.filter (fun x => !(p x))).length := by
  induction m with
  | nil => simp
  | cons x rest ih =>
    by_cases hp : p x <;> simp [List.filter_cons, hp, ih] <;> omega

/-! ## Helper lemmas about the operations -/

/-- A well-formed state has non-negative expirations at every key. -/
theorem Cache.WF.lookup_nonneg {α : Type} {c : Cache α} (hwf : c.WF)
    {k : String} {i : Item α} (h : GoMap.lookup c.items k = some i) :
    0 ≤ i.expiration :=
  hwf.2 (k, i) (GoMap.lookup_mem h)

/-- Under well-formedness the code expiry test is the negation of the spec
liveness predicate. -/
theorem isExpiredAt_eq_not_liveSpecAt {α : Type} {i : Item α} {t : Int}
    (h : 0 ≤ i.expiration) :
    i.isExpiredAt t = !(decide (i.liveSpecAt t)) := by
  simp only [Item.isExpiredAt, Item.liveSpecAt]
  by_cases h0 : i.expiration = 0
  · simp [h0]
  · have : 0 < i.expiration := lt_of_le_of_ne h (Ne.symm h0)
    by_cases ht : i.expiration ≤ t <;> simp [this, ht, h0] <;> omega

/-- `Get` never writes the receiver (shared with several claims). -/
theorem get_state_eq {α : Type} (c : Cache α) (k : String) (t : Int) :
    (c.Get k t).2 = c := by
  unfold Cache.Get
  cases GoMap.lookup c.items k with
  | some i => by_cases h : i.isExpiredAt t <;> simp [h]
  | none => rfl

/-- One sweeper tick, seen through lookup: an entry survives exactly when it
is live. -/
theorem lookup_cleanUpTick {α : Type} {c : Cache α} (hwf : c.WF) (t : Int)
    (k : String) :
    GoMap.lookup (c.cleanUpTick t).items k =
      match GoMap.lookup c.items k with
      | some i => if i.liveSpecAt t then some i else none
      | none => none := by
  cases h : GoMap.lookup c.items k with
  | some i =>
    have hnn := hwf.lookup_nonneg h
    rw [Cache.cleanUpTick]
    have := GoMap.lookup_filter_of_nodup c.items k i
      (fun p => !(p.2.isExpiredAt t)) hwf.1 h
    simp only [this, isExpiredAt_eq_not_liveSpecAt hnn]
    by_cases hl : i.liveSpecAt t <;> simp [hl]
  | none =>
    rw [Cache.cleanUpTick]
    simp [GoMap.lookup_none_filter c.items k _ h, h]

/-- A sweeper tick preserves well-formedness. -/
theorem cleanUpTick_WF {α : Type} {c : Cache α} (hwf : c.WF) (t : Int) :
    (c.cleanUpTick t).WF := by
  refine ⟨GoMap.nodup_filter c.items _ hwf.1, ?_⟩
  intro p hp
  exact hwf.2 p (List.mem_of_mem_filter hp)

/-- Entries with no expiration deadline survive any sequence of sweeper
ticks. -/
theorem sweeps_preserve_noexpiration {α : Type} (ts : List Int) :
    ∀ (c : Cache α), c.WF → ∀ k i, GoMap.lookup c.items k = some i →
      i.expiration = 0 → GoMap.lookup (c.sweeps ts).items k = some i := by
  induction ts with
  | nil =>
    intro c _ k i h _
    simpa [Cache.sweeps] using h
  | cons t₀ rest ih =>
    intro c hwf k i h h0
    have h' : GoMap.lookup (c.cleanUpTick t₀).items k = some i := by
      rw [lookup_cleanUpTick hwf t₀ k, h]
      simp [Item.liveSpecAt, h0]
    have hfold : c.sweeps (t₀ :: rest) = (c.cleanUpTick t₀).sweeps rest := rfl
    rw [hfold]
    exact ih (c.cleanUpTick t₀) (cleanUpTick_WF hwf t₀) k i h' h0

/-! ## Claims -/

/-- C1: for every cache state and every `Set(k, v, d)`: the sentinel
`DefaultExpiration` (0) resolves to the cache's `defaultExpiration`; when the
resolved duration is positive the stored entry's deadline is `now + duration`;
when `d` is `NoExpiration` (-1) or the resolved duration is otherwise
non-positive the stored entry carries no deadline (`0`) and is never expired
at any time. -/
theorem Set_expiration_semantics {α : Type} (c : Cache α) (k : String) (v : α)
    (d now : Int) :
    GoMap.lookup (c.Set k v d now).items k =
      some ⟨v, if 0 < (if d = DefaultExpiration then c.defaultExpiration else d)
               then now + (if d = DefaultExpiration then c.defaultExpiration else d)
               else 0⟩ ∧
    ((if d = DefaultExpiration then c.defaultExpiration else d) ≤ 0 →
      ∀ t, Item.isExpiredAt (⟨v, 0⟩ : Item α) t = false) := by
  constructor
  · simp [Cache.Set, Cache.set, GoMap.lookup_insert_self]
  · intro _ t
    simp [Item.isExpiredAt]

/-- Witness for C1: storing with `NoExpiration` in a concrete cache gives an
entry that is not expired at a concrete later time. -/
theorem Set_expiration_semantics_witness :
    ((if NoExpiration = DefaultExpiration
        then (Cache.mk [] (-1) : Cache Nat).defaultExpiration
        else NoExpiration) ≤ 0) ∧
      Item.isExpiredAt (⟨7, 0⟩ : Item Nat) 3 = false := by
  refine ⟨by decide, ?_⟩
  exact (Set_expiration_semantics (Cache.mk [] (-1) : Cache Nat)
    "k" 7 NoExpiration 100).2 (by decide) 3

/-- C2: `Get(k)` at time `t` returns `(value, true)` exactly when the map
holds an entry for `k` whose expiration is unset or strictly in the future of
`t`, and `(none, false)` when `k` is absent or its entry's expiration is set
and at most `t`: an expired-but-unswept entry reads like an absent key. -/
theorem Get_found_iff_live {α : Type} (c : Cache α) (k : String) (t : Int)
    (hwf : c.WF) :
    (c.Get k t).1 =
      match GoMap.lookup c.items k with
      | some i => if i.liveSpecAt t then (some i.object, true) else (none, false)
      | none => (none, false) := by
  cases h : GoMap.lookup c.items k with
  | some i =>
    have hnn := hwf.lookup_nonneg h
    by_cases hl : i.liveSpecAt t <;>
      simp [Cache.Get, h, isExpiredAt_eq_not_liveSpecAt hnn, hl]
  | none => simp [Cache.Get, h]

/-- Witness for C2: a concrete live entry is found with its value. -/
theorem Get_found_iff_live_witness :
    (Cache.mk [("a", ⟨3, 10⟩)] (-1) : Cache Nat).WF ∧
      ((Cache.mk [("a", ⟨3, 10⟩)] (-1) : Cache Nat).Get "a" 5).1 = (some 3, true) := by
  constructor
  · decide
  · have h := Get_found_iff_live (Cache.mk [("a", ⟨3, 10⟩)] (-1) : Cache Nat)
      "a" 5 (by decide)
    simpa [GoMap.lookup, Item.liveSpecAt] using h

/-- C3: `Get` leaves the cache state entirely unchanged; in particular an
expired-but-unswept entry for `k` is not removed from the map by the
lookup. -/
theorem Get_preserves_state {α : Type} (c : Cache α) (k : String) (t : Int) :
    (c.Get k t).2 = c :=
  get_state_eq c k t

/-- C4: `Add(k, v, d)` succeeds exactly when `k` is absent or the existing
entry is expired at call time; on success it stores via `set`; when a live
entry is present it returns the error wrapping `ErrItemAlreadyExists` carrying
`k` and the whole map is unchanged. -/
theorem Add_success_iff_no_live_entry {α : Type} (c : Cache α) (k : String)
    (v : α) (d t : Int) (hwf : c.WF) :
    ((c.Add k v d t).1 = none ↔
      GoMap.lookup c.items k = none ∨
        ∃ i, GoMap.lookup c.items k = some i ∧ ¬ i.liveSpecAt t) ∧
    ((c.Add k v d t).1 = none → (c.Add k v d t).2 = c.set k v d t) ∧
    (∀ i, GoMap.lookup c.items k = some i → i.liveSpecAt t →
      c.Add k v d t = (some ⟨BaseErr.ErrItemAlreadyExists, k⟩, c)) := by
  cases h : GoMap.lookup c.items k with
  | some i =>
    have hnn := hwf.lookup_nonneg h
    by_cases hl : i.liveSpecAt t <;>
      refine ⟨?_, ?_, ?_⟩ <;>
        simp [Cache.Add, h, isExpiredAt_eq_not_liveSpecAt hnn, hl]
  | none =>
    refine ⟨?_, ?_, ?_⟩ <;> simp [Cache.Add, h]

/-- Witness for C4: adding over a concrete live entry fails with the wrapped
`ErrItemAlreadyExists` and leaves the cache unchanged. -/
theorem Add_success_iff_no_live_entry_witness :
    (Cache.mk [("a", ⟨1, 0⟩)] (-1) : Cache Nat).WF ∧
    GoMap.lookup (Cache.mk [("a", ⟨1, 0⟩)] (-1) : Cache Nat).items "a" = some ⟨1, 0⟩ ∧
    Item.liveSpecAt (⟨1, 0⟩ : Item Nat) 5 ∧
    (Cache.mk [("a", ⟨1, 0⟩)] (-1) : Cache Nat).Add "a" 2 0 5 =
      (some ⟨BaseErr.ErrItemAlreadyExists, "a"⟩,
        (Cache.mk [("a", ⟨1, 0⟩)] (-1) : Cache Nat)) := by
  refine ⟨by decide, by decide, by decide, ?_⟩
  exact (Add_success_iff_no_live_entry (Cache.mk [("a", ⟨1, 0⟩)] (-1) : Cache Nat)
    "a" 2 0 5 (by decide)).2.2 ⟨1, 0⟩ (by decide) (by decide)

/-- C5: `Replace(k, v, d)` succeeds exactly when a live entry exists for `k`,
overwriting via the same `set` as `Set`; otherwise it returns the error
wrapping `ErrItemNotFound` carrying `k` and the map is unchanged, so an
expired-but-present entry is not removed by a failed `Replace`. -/
theorem Replace_success_iff_live_entry {α : Type} (c : Cache α) (k : String)
    (v : α) (d t : Int) (hwf : c.WF) :
    ((c.Replace k v d t).1 = none ↔
      ∃ i, GoMap.lookup c.items k = some i ∧ i.liveSpecAt t) ∧
    ((c.Replace k v d t).1 = none → (c.Replace k v d t).2 = c.set k v d t) ∧
    ((¬ ∃ i, GoMap.lookup c.items k = some i ∧ i.liveSpecAt t) →
      c.Replace k v d t = (some ⟨BaseErr.ErrItemNotFound, k⟩, c)) := by
  cases h : GoMap.lookup c.items k with
  | some i =>
    have hnn := hwf.lookup_nonneg h
    by_cases hl : i.liveSpecAt t <;>
      refine ⟨?_, ?_, ?_⟩ <;>
        simp [Cache.Replace, h, isExpiredAt_eq_not_liveSpecAt hnn, hl]
  | none =>
    refine ⟨?_, ?_, ?_⟩ <;> simp [Cache.Replace, h]

/-- Witness for C5: replacing a concrete expired entry fails with the wrapped
`ErrItemNotFound` and the expired entry stays in the map. -/
theorem Replace_success_iff_live_entry_witness :
    (Cache.mk [("a", ⟨1, 4⟩)] (-1) : Cache Nat).WF ∧
    (¬ ∃ i, GoMap.lookup (Cache.mk [("a", ⟨1, 4⟩)] (-1) : Cache Nat).items "a" =
        some i ∧ i.liveSpecAt 9) ∧
    (Cache.mk [("a", ⟨1, 4⟩)] (-1) : Cache Nat).Replace "a" 2 0 9 =
      (some ⟨BaseErr.ErrItemNotFound, "a"⟩,
        (Cache.mk [("a", ⟨1, 4⟩)] (-1) : Cache Nat)) := by
  have hnl : ¬ ∃ i, GoMap.lookup (Cache.mk [("a", ⟨1, 4⟩)] (-1) : Cache Nat).items "a" =
      some i ∧ i.liveSpecAt 9 := by
    rintro ⟨i, hi, hl⟩
    have : i = (⟨1, 4⟩ : Item Nat) := by simpa [GoMap.lookup] using hi.symm
    subst this
    simp [Item.liveSpecAt] at hl
  refine ⟨by decide, hnl, ?_⟩
  exact (Replace_success_iff_live_entry (Cache.mk [("a", ⟨1, 4⟩)] (-1) : Cache Nat)
    "a" 2 0 9 (by decide)).2.2 hnl

/-- C6: `Set(k, v, d)` immediately followed by `Get(k)` at the same instant
returns `(v, true)`, for every duration `d` including the sentinels. -/
theorem Set_Get_roundtrip {α : Type} (c : Cache α) (k : String) (v : α)
    (d t : Int) :
    ((c.Set k v d t).Get k t).1 = (some v, true) := by
  have h : GoMap.lookup (c.Set k v d t).items k =
      some ⟨v, if 0 < (if d = DefaultExpiration then c.defaultExpiration else d)
               then t + (if d = DefaultExpiration then c.defaultExpiration else d)
               else 0⟩ := by
    simp [Cache.Set, Cache.set, GoMap.lookup_insert_self]
  by_cases hp : 0 < (if d = DefaultExpiration then c.defaultExpiration else d)
  · have hne : ¬ (t + (if d = DefaultExpiration then c.defaultExpiration else d) ≤ t) := by
      omega
    simp [Cache.Get, h, hp, Item.isExpiredAt, hne]
  · simp [Cache.Get, h, hp, Item.isExpiredAt]

/-- C7: one sweeper tick at time `t` keeps exactly the entries whose
expiration is unset or strictly greater than `t`, and an entry with no
expiration deadline is never removed by any sequence of sweeps. -/
theorem cleanUpTick_filters_expired {α : Type} (c : Cache α) (t : Int)
    (hwf : c.WF) :
    (∀ k, GoMap.lookup (c.cleanUpTick t).items k =
      match GoMap.lookup c.items k with
      | some i => if i.liveSpecAt t then some i else none
      | none => none) ∧
    (∀ ts k i, GoMap.lookup c.items k = some i → i.expiration = 0 →
      GoMap.lookup (c.sweeps ts).items k = some i) := by
  constructor
  · intro k
    exact lookup_cleanUpTick hwf t k
  · intro ts k i h h0
    exact sweeps_preserve_noexpiration ts c hwf k i h h0

/-- Witness for C7: in a concrete cache a tick removes the expired entry and
two successive sweeps keep the no-expiration entry. -/
theorem cleanUpTick_filters_expired_witness :
    (Cache.mk [("a", ⟨1, 3⟩), ("b", ⟨2, 0⟩)] (-1) : Cache Nat).WF ∧
    GoMap.lookup
      ((Cache.mk [("a", ⟨1, 3⟩), ("b", ⟨2, 0⟩)] (-1) : Cache Nat).cleanUpTick 5).items
      "a" = none ∧
    GoMap.lookup
      ((Cache.mk [("a", ⟨1, 3⟩), ("b", ⟨2, 0⟩)] (-1) : Cache Nat).sweeps [5, 6]).items
      "b" = some ⟨2, 0⟩ := by
  refine ⟨by decide, ?_, ?_⟩
  · have h := (cleanUpTick_filters_expired
      (Cache.mk [("a", ⟨1, 3⟩), ("b", ⟨2, 0⟩)] (-1) : Cache Nat) 5 (by decide)).1 "a"
    rw [h]
    decide
  · exact (cleanUpTick_filters_expired
      (Cache.mk [("a", ⟨1, 3⟩), ("b", ⟨2, 0⟩)] (-1) : Cache Nat) 5 (by decide)).2
      [5, 6] "b" ⟨2, 0⟩ (by decide) rfl

/-- C8: a `NewCache` with non-positive default expiration behaves as if its
default were "no expiration": any later `Set` with the `DefaultExpiration`
sentinel stores an entry with no deadline, never expired at any time. -/
theorem NewCache_nonpositive_default_never_expires {α : Type}
    (de ci : Int) (hde : de ≤ 0) (c : Cache α)
    (hc : c.defaultExpiration = (NewCache α de ci).defaultExpiration)
    (k : String) (v : α) (now : Int) :
    GoMap.lookup (c.Set k v DefaultExpiration now).items k = some ⟨v, 0⟩ ∧
    ∀ t, Item.isExpiredAt (⟨v, 0⟩ : Item α) t = false := by
  have hce : c.defaultExpiration = -1 := by
    rw [hc]
    simp [NewCache, NoExpiration, if_pos hde]
  constructor
  · simp [Cache.Set, Cache.set, DefaultExpiration, hce, GoMap.lookup_insert_self]
  · intro t
    simp [Item.isExpiredAt]

/-- Witness for C8: a cache built with default `-5` stores a deadline-free
entry under the `DefaultExpiration` sentinel. -/
theorem NewCache_nonpositive_default_never_expires_witness :
    (-5 : Int) ≤ 0 ∧
    GoMap.lookup ((NewCache Nat (-5) 0).Set "k" 9 DefaultExpiration 100).items "k" =
      some ⟨9, 0⟩ := by
  refine ⟨by decide, ?_⟩
  exact (NewCache_nonpositive_default_never_expires (-5) 0 (by decide)
    (NewCache Nat (-5) 0) rfl "k" 9 100).1

/-- C9: `ItemCount` returns the number of entries in the map, counting
expired-but-unswept entries too (the live/expired split at any time `t` sums
to it), and a mere read (`Get`) never changes it. -/
theorem ItemCount_counts_all_entries {α : Type} (c : Cache α) (t : Int)
    (k : String) :
    c.ItemCount = c.items.length ∧
    c.ItemCount = (c.items.filter (fun p => !(p.2.isExpiredAt t))).length +
      (c.items.filter (fun p => p.2.isExpiredAt t)).length ∧
    ((c.Get k t).2).ItemCount = c.ItemCount := by
  refine ⟨rfl, ?_, by rw [get_state_eq]⟩
  have h := length_filter_partition c.items (fun q => q.2.isExpiredAt t)
  rw [Cache.ItemCount]
  omega

/-- C10: `Set`, successful `Add`, successful `Replace` and `Delete` on key `k`
leave the entry stored for any other key `k'` exactly unchanged. -/
theorem ops_preserve_other_keys {α : Type} (c : Cache α) (k k' : String)
    (hne : k' ≠ k) (v : α) (d t : Int) :
    GoMap.lookup (c.Set k v d t).items k' = GoMap.lookup c.items k' ∧
    ((c.Add k v d t).1 = none →
      GoMap.lookup ((c.Add k v d t).2).items k' = GoMap.lookup c.items k') ∧
    ((c.Replace k v d t).1 = none →
      GoMap.lookup ((c.Replace k v d t).2).items k' = GoMap.lookup c.items k') ∧
    GoMap.lookup (c.Delete k).items k' = GoMap.lookup c.items k' := by
  have hset : GoMap.lookup (c.set k v d t).items k' = GoMap.lookup c.items k' :=
    GoMap.lookup_insert_ne c.items k k' _ hne
  refine ⟨hset, ?_, ?_, ?_⟩
  · cases h : GoMap.lookup c.items k with
    | some i =>
      by_cases he : i.isExpiredAt t <;> simp [Cache.Add, h, he, hset]
    | none => simp [Cache.Add, h, hset]
  · cases h : GoMap.lookup c.items k with
    | some i =>
      by_cases he : i.isExpiredAt t <;> simp [Cache.Replace, h, he, hset]
    | none => simp [Cache.Replace, h]
  · exact GoMap.lookup_erase_ne c.items k k' hne

/-- Witness for C10: in a concrete two-key cache a successful `Add` and a
`Delete` on one key leave the other key's entry unchanged. -/
theorem ops_preserve_other_keys_witness :
    ("a" : String) ≠ "c" ∧
    ((Cache.mk [("a", ⟨1, 0⟩), ("b", ⟨2, 0⟩)] (-1) : Cache Nat).Add "c" 5 0 7).1 = none ∧
    GoMap.lookup
      (((Cache.mk [("a", ⟨1, 0⟩), ("b", ⟨2, 0⟩)] (-1) : Cache Nat).Add "c" 5 0 7).2).items
      "a" =
      GoMap.lookup (Cache.mk [("a", ⟨1, 0⟩), ("b", ⟨2, 0⟩)] (-1) : Cache Nat).items "a" ∧
    GoMap.lookup
      ((Cache.mk [("a", ⟨1, 0⟩), ("b", ⟨2, 0⟩)] (-1) : Cache Nat).Delete "c").items "a" =
      GoMap.lookup (Cache.mk [("a", ⟨1, 0⟩), ("b", ⟨2, 0⟩)] (-1) : Cache Nat).items "a" := by
  have h := ops_preserve_other_keys
    (Cache.mk [("a", ⟨1, 0⟩), ("b", ⟨2, 0⟩)] (-1) : Cache Nat) "c" "a" (by decide) 5 0 7
  exact ⟨by decide, by decide, h.2.1 (by decide), h.2.2.2⟩

end GoCache
